import Mathlib

/-!
Verification of the SmartStock replenishment and stock-monitoring engine.

The definitions below are a shallow embedding of the application code:

* `src/frontend/app/(tabs)/Stock.tsx` — stock overview screen: `calculatePriority`,
  the priority-sorted `load`, and the `ProductRow` renderer of `days_to_out_of_stock`;
* `src/frontend/app/Order-product.tsx` — order screen: the quantity selector,
  `openOverrideModal`, `submitOverride`, and `placeOrder` with its FIFO-violation gate;
* `src/frontend/app/(tabs)/Dashboard.tsx` and the second dashboard variant
  (`src/unnamed/part_003`) — the derived `stats` block;
* `src/frontend/app/(tabs)/Settings.tsx` — the replenishment-frequency options;
* `src/backend/init_db.sql` — schema constraints (the `REPLENISHMENT_FREQUENCY`
  CHECK) and the fixture rows.

The backend API (FastAPI/Python) is not part of the repository snapshot; where a
property is decided by that missing code (the FIFO allocator, the stock
classifier, the demand forecaster, the cadence-setting endpoint) the
corresponding definition is modelled from the specification text and is marked
`Modelled from the spec:` in its doc comment.

JavaScript numbers are modelled as `Int`/`Nat` (all quantities in the code are
integer counts) and exact division as `ℚ`; JS `x ?? y` / `x || 0` coalescing on
an optional value is modelled with `Option`.
-/

namespace SmartStock

/-! ### Data model -/

/-- Stock status as displayed by the Stock screen (`StockStatus` union type in
`Stock.tsx`): `"Stable" | "Low" | "Critical"`. -/
inductive StockStatus
  | stable
  | low
  | critical
deriving DecidableEq, Repr

/-- Replenishment priority level (`PriorityLevel` union type in `Stock.tsx`):
`"High" | "Medium" | "Low"`. -/
inductive PriorityLevel
  | high
  | medium
  | low
deriving DecidableEq, Repr

/-- One entry of the stock-overview list (`StockOverview` interface in
`Stock.tsx`), restricted to the fields the verified logic reads. -/
structure StockOverview where
  product_id : Nat
  product_name : String
  total_quantity : Int
  status : StockStatus
deriving DecidableEq, Repr

/-- One `HAS_STOCK` row of `init_db.sql`: a (store, batch) pair with a quantity
and a reorder level (`reorder_level INT DEFAULT 10`). -/
structure HasStockRow where
  store_id : Nat
  batch_id : Nat
  quantity : Int
  reorder_level : Int
deriving DecidableEq, Repr

/-- The three `HAS_STOCK` fixture rows inserted by `init_db.sql` (lines 111–119):
low stock (5 ≤ 10), overstock (500 > 3·20), and the batch expiring tomorrow. -/
def hasStockFixtures : List HasStockRow :=
  [ { store_id := 100, batch_id := 100, quantity := 5, reorder_level := 10 },
    { store_id := 100, batch_id := 101, quantity := 500, reorder_level := 20 },
    { store_id := 100, batch_id := 999, quantity := 15, reorder_level := 5 } ]

/-! ### Stock screen: replenishment priority (`Stock.tsx`) -/

/-- `calculatePriority` from `Stock.tsx`:
`if (item.status === "Critical") return "High"; if (item.status === "Low") return "Medium"; return "Low";` -/
def calculatePriority (item : StockOverview) : PriorityLevel :=
  if item.status = StockStatus.critical then PriorityLevel.high
  else if item.status = StockStatus.low then PriorityLevel.medium
  else PriorityLevel.low

/-- The numeric rank used by the sort in `load` (`Stock.tsx`):
`const priorityMap = { High: 3, Medium: 2, Low: 1 }`. -/
def priorityMap : PriorityLevel → Nat
  | PriorityLevel.high => 3
  | PriorityLevel.medium => 2
  | PriorityLevel.low => 1

/-- A fixture item whose status is `Low` (product 1, `BATCH-LOW-STOCK`,
quantity 5 against reorder level 10). -/
def lowStatusItem : StockOverview :=
  { product_id := 100, product_name := "Yogurt Strawberry", total_quantity := 5,
    status := StockStatus.low }

/-! ### Stock classifier thresholds (modelled from the spec) -/

/-- Modelled from the spec: the Stock Classifier status rule (the backend
service computing `status` is not under `src/`; its thresholds are documented by
the fixture comments of `src/backend/init_db.sql`): `Low` when
`quantity ≤ reorder_level`, else `Stable`. -/
def classifyStatus (quantity reorder_level : Int) : StockStatus :=
  if quantity ≤ reorder_level then StockStatus.low else StockStatus.stable

/-- Modelled from the spec: the Stock Classifier overstock rule (backend not
under `src/`; documented by the `init_db.sql` fixture comment
`Qty (500) > 3 * Reorder Level (20) -> 500 > 60`): overstock iff
`quantity > 3 × reorder_level`. -/
def isOverstock (quantity reorder_level : Int) : Bool :=
  decide (3 * reorder_level < quantity)

/-! ### Order screen: quantity selector (`Order-product.tsx`) -/

/-- A press on the order screen's quantity selector: the `-` or `+` circle. -/
inductive QtyPress
  | dec
  | inc
deriving DecidableEq, Repr

/-- One press of the quantity selector in `Order-product.tsx`:
`-` runs `setValue((v) => Math.max(0, (v || 0) - 1))` and
`+` runs `setValue((v) => (v || 0) + 1)` (on an integer state `v || 0` is `v`). -/
def pressQty (v : Int) : QtyPress → Int
  | QtyPress.dec => max 0 (v - 1)
  | QtyPress.inc => v + 1

/-- The quantity state after a finite sequence of selector presses. -/
def pressQtySeq (v : Int) (ps : List QtyPress) : Int :=
  ps.foldl pressQty v

theorem pressQtySeq_nonneg (ps : List QtyPress) (v : Int) (h : 0 ≤ v) :
    0 ≤ pressQtySeq v ps := by
  induction ps generalizing v with
  | nil => exact h
  | cons p ps ih =>
    cases p with
    | dec => exact ih _ (le_max_left 0 _)
    | inc => exact ih _ (show (0 : Int) ≤ v + 1 by omega)

/-! ### Stock screen: priority-sorted load (`Stock.tsx`) -/

/-- The sort comparator of `load` in `Stock.tsx`:
`mapped.sort((a, b) => priorityMap[calculatePriority(b)] - priorityMap[calculatePriority(a)])`.
`a` stays before `b` exactly when the comparator is ≤ 0, i.e. when `b`'s rank is
at most `a`'s rank. -/
def loadLe (a b : StockOverview) : Bool :=
  decide (priorityMap (calculatePriority b) ≤ priorityMap (calculatePriority a))

/-- The list displayed by the Stock screen: the fetched overview list sorted by
the comparator above (non-increasing computed priority). -/
def loadSorted (l : List StockOverview) : List StockOverview :=
  l.mergeSort loadLe

theorem loadLe_trans (a b c : StockOverview) (hab : loadLe a b = true)
    (hbc : loadLe b c = true) : loadLe a c = true := by
  simp only [loadLe, decide_eq_true_eq] at *
  omega

theorem loadLe_total (a b : StockOverview) : (loadLe a b || loadLe b a) = true := by
  simp only [loadLe, Bool.or_eq_true, decide_eq_true_eq]
  omega

/-! ### Dashboard stats (`Dashboard.tsx` and the `part_003` variant) -/

/-- `withStock` in `Dashboard.tsx`:
`categories.filter((c) => c.total_stock > 0).length`. -/
def withStockCount (cats : List Int) : Nat :=
  (cats.filter (fun c => decide (0 < c))).length

/-- `outOfStock` in both dashboard variants:
`categories.filter(c => c.total_stock === 0).length`. -/
def outOfStockCount (cats : List Int) : Nat :=
  (cats.filter (fun c => decide (c = 0))).length

/-- JavaScript `Math.round` on an exact rational: round half up. -/
def jsRound (x : ℚ) : Int :=
  ⌊x + 1 / 2⌋

/-- `stats.availability` in `Dashboard.tsx`:
`total > 0 ? Math.round((withStock / total) * 100) : 0`. -/
def availability (cats : List Int) : Int :=
  if 0 < cats.length then
    jsRound ((withStockCount cats : ℚ) / (cats.length : ℚ) * 100)
  else 0

/-- `stats.availability` in the `part_003` dashboard variant:
`total ? Math.round(((total - outOfStock) / total) * 100) : 0`. -/
def availabilityAlt (cats : List Int) : Int :=
  if cats.length ≠ 0 then
    jsRound (((cats.length : ℚ) - (outOfStockCount cats : ℚ)) / (cats.length : ℚ) * 100)
  else 0

theorem jsRound_bounds (x : ℚ) (h0 : 0 ≤ x) (h1 : x ≤ 100) :
    0 ≤ jsRound x ∧ jsRound x ≤ 100 := by
  unfold jsRound
  constructor
  · exact Int.le_floor.mpr (by push_cast; linarith)
  · have h2 : x + 1 / 2 ≤ (201 : ℚ) / 2 := by linarith
    have h3 : (⌊(201 : ℚ) / 2⌋ : Int) = 100 := by
      rw [Int.floor_eq_iff]
      norm_num
    exact le_of_le_of_eq (Int.floor_le_floor h2) h3

theorem withStockCount_le (cats : List Int) : withStockCount cats ≤ cats.length :=
  List.length_filter_le _ cats

theorem withStock_add_outOfStock (cats : List Int) (h : ∀ c ∈ cats, 0 ≤ c) :
    withStockCount cats + outOfStockCount cats = cats.length := by
  induction cats with
  | nil => rfl
  | cons c cs ih =>
    have hc : 0 ≤ c := h c (List.mem_cons_self c cs)
    have ihs := ih (fun x hx => h x (List.mem_cons_of_mem c hx))
    by_cases h0 : c = 0
    · simp only [withStockCount, outOfStockCount, List.filter_cons, h0] at *
      simp only [decide_eq_true_eq] at *
      norm_num
      omega
    · have hpos : 0 < c := lt_of_le_of_ne hc (Ne.symm h0)
      simp only [withStockCount, outOfStockCount, List.filter_cons] at *
      simp only [decide_eq_true_eq] at *
      rw [if_pos hpos, if_neg h0]
      simp only [List.length_cons, List.length]
      omega

/-! ### Order screen: session user, FIFO batch, override modal, place order
(`Order-product.tsx`) -/

/-- The session user fetched from `/session/user`: `{ user_id, role_id }`.
Role 2 is Manager; any other role id is a non-manager (Employee). -/
structure SessionUser where
  user_id : Nat
  role_id : Nat
deriving DecidableEq, Repr

/-- JavaScript `currentUser?.role_id`: `none` when no user is loaded. -/
def roleId (u : Option SessionUser) : Option Nat :=
  u.map SessionUser.role_id

/-- The FIFO batch state of the order screen (`FifoBatch` type in
`Order-product.tsx`), fetched from `/replenishment/STORE_ID/productId`. -/
structure FifoBatch where
  batch_id : Nat
  batch_code : String
  quantity : Int
  expiration_date : Option String
deriving DecidableEq, Repr

/-- The body of the PATCH request issued to
`/replenishment-frequency/productId/STORE_ID/replenish`, restricted to the
fields the verified logic constrains. -/
structure CommitRequest where
  batch_id : Nat
  quantity : Int
  user_id : Nat
deriving DecidableEq, Repr

/-- Outcome of `placeOrder` in `Order-product.tsx`, up to the point where the
network request is (or is not) issued. `managerFifoAlert` records whether the
manager-override FIFO alert fired before the request went out. -/
inductive PlaceOrderOutcome
  | noBatchSelected
  | fifoViolationRejected
  | commitIssued (managerFifoAlert : Bool) (req : CommitRequest)
deriving DecidableEq, Repr

/-- `placeOrder` from `Order-product.tsx`: returns early with an alert when no
batch is selected; computes `isFifoViolation = value > fifoBatch.quantity`;
rejects with the FIFO-violation alert when the acting user is not role 2;
otherwise (warning the manager when the ceiling is exceeded) issues the PATCH
commit request with the selected batch, the requested `value`, and
`currentUser?.user_id ?? 1`. -/
def placeOrder (selectedBatchId : Option Nat) (fifoBatch : Option FifoBatch)
    (value : Int) (currentUser : Option SessionUser) : PlaceOrderOutcome :=
  match selectedBatchId, fifoBatch with
  | some sel, some fb =>
    let isFifoViolation : Bool := decide (fb.quantity < value)
    if isFifoViolation && !(decide (roleId currentUser = some 2)) then
      PlaceOrderOutcome.fifoViolationRejected
    else
      PlaceOrderOutcome.commitIssued
        (isFifoViolation && decide (roleId currentUser = some 2))
        { batch_id := sel, quantity := value,
          user_id := (currentUser.map SessionUser.user_id).getD 1 }
  | _, _ => PlaceOrderOutcome.noBatchSelected

/-- The commit requests issued by an order outcome: none on a rejection. -/
def commitsOf : PlaceOrderOutcome → List CommitRequest
  | PlaceOrderOutcome.commitIssued _ req => [req]
  | _ => []

/-- Modelled from the spec: the Replenishment Logger commit applies a committed
request to the stock ledger by increasing the matching (store, batch) row's
quantity (the backend commit endpoint is not under `src/`). -/
def applyCommit (store : Nat) (stock : List HasStockRow) (req : CommitRequest) :
    List HasStockRow :=
  stock.map (fun r =>
    if r.store_id = store ∧ r.batch_id = req.batch_id then
      { r with quantity := r.quantity + req.quantity }
    else r)

/-- The stock ledger after an order outcome: each issued commit is applied. -/
def stockAfterOrder (store : Nat) (stock : List HasStockRow)
    (o : PlaceOrderOutcome) : List HasStockRow :=
  (commitsOf o).foldl (applyCommit store) stock

/-- The override modal state of the order screen: quantity, reason, priority,
notes, and visibility. -/
structure OverrideModalState where
  overrideQuantity : Int
  reason : String
  priority : PriorityLevel
  notes : String
  modalVisible : Bool
deriving DecidableEq, Repr

/-- `openOverrideModal` from `Order-product.tsx`: returns without touching any
state when `currentUser?.role_id !== 2`; otherwise resets the modal fields and
opens the modal. -/
def openOverrideModal (currentUser : Option SessionUser) (value : Int)
    (s : OverrideModalState) : OverrideModalState :=
  if roleId currentUser ≠ some 2 then s
  else
    { overrideQuantity := value, reason := "", priority := PriorityLevel.high,
      notes := "", modalVisible := true }

/-- The Override Suggestion button's render condition in `OrderProduct`:
`!loadingUser && currentUser?.role_id === 2`. -/
def overrideButtonVisible (loadingUser : Bool) (currentUser : Option SessionUser) :
    Bool :=
  !loadingUser && decide (roleId currentUser = some 2)

/-! ### Demand forecaster output and its renderer -/

/-- Modelled from the spec: the Demand Forecaster's days-to-out-of-stock value
(the backend forecaster is not under `src/`): `current_total_quantity /
average_daily_sales`, reported as null rather than an error when
`average_daily_sales = 0`. -/
def daysToOutOfStock (currentTotal averageDailySales : ℚ) : Option ℚ :=
  if averageDailySales = 0 then none
  else some (currentTotal / averageDailySales)

/-- The `ProductRow` renderer of `Stock.tsx`: a non-null
`days_to_out_of_stock` renders as the number of days, a null one renders as the
em-dash placeholder text. -/
def renderDaysToOOS : Option ℚ → String
  | some d => "Days to OOS: " ++ toString d ++ "d"
  | none => "Days to OOS: —"

/-! ### Replenishment cadence (`init_db.sql`, `Settings.tsx`) -/

/-- Error taxonomy entry for an out-of-range cadence. -/
inductive CadenceError
  | invalidCadence
deriving DecidableEq, Repr

/-- One `REPLENISHMENT_FREQUENCY` row of `init_db.sql`: a (product, store)
pair, unique, with a frequency and a nullable last replenishment date. -/
structure CadenceRow where
  product_id : Nat
  store_id : Nat
  replenishment_frequency : Int
  last_replenishment_date : Option String
deriving DecidableEq, Repr

/-- The CHECK constraint on `REPLENISHMENT_FREQUENCY` in `init_db.sql`:
`CHECK (replenishment_frequency >= 1 AND replenishment_frequency <= 3)`. -/
def cadenceCheck (f : Int) : Bool :=
  decide (1 ≤ f) && decide (f ≤ 3)

/-- Modelled from the spec: setting `frequency_days` for a (product, store)
pair fails with `InvalidCadence` and writes nothing when the value is outside
[1,3] (the configuration endpoint is not under `src/`; the range guard is the
SQL CHECK constraint `cadenceCheck`). -/
def setFrequency (table : List CadenceRow) (pid sid : Nat) (f : Int) :
    Except CadenceError (List CadenceRow) :=
  if cadenceCheck f then
    Except.ok (table.map (fun r =>
      if r.product_id = pid ∧ r.store_id = sid then
        { r with replenishment_frequency := f }
      else r))
  else Except.error CadenceError.invalidCadence

/-- The cadence values offered by the Settings screen (`Settings.tsx`):
the three frequency buttons are built from the literal array `[1, 2, 3]`. -/
def frequencyOptions : List Int :=
  [1, 2, 3]

/-- The `REPLENISHMENT_FREQUENCY` fixture rows inserted by `init_db.sql`. -/
def cadenceFixtures : List CadenceRow :=
  [ { product_id := 1, store_id := 1, replenishment_frequency := 1,
      last_replenishment_date := none },
    { product_id := 2, store_id := 1, replenishment_frequency := 2,
      last_replenishment_date := none },
    { product_id := 5, store_id := 1, replenishment_frequency := 3,
      last_replenishment_date := none },
    { product_id := 1, store_id := 2, replenishment_frequency := 2,
      last_replenishment_date := none },
    { product_id := 3, store_id := 2, replenishment_frequency := 1,
      last_replenishment_date := none } ]

/-! ### FIFO Allocator (modelled from the spec, consumed by `fetchFifoBatch`) -/

/-- One StockLevel row for a fixed (store, product), as seen by the FIFO
Allocator: batch identity, optional expiration date (encoded as a day number),
and available quantity. -/
structure BatchStock where
  batch_id : Nat
  expiration_date : Option Nat
  quantity : Int
deriving DecidableEq, Repr

/-- The FIFO ordering key, lexicographic: dated batches sort before undated
ones, then by earliest expiration date, then by lowest batch identity. -/
def fifoKey (b : BatchStock) : Nat ×ₗ Nat ×ₗ Nat :=
  match b.expiration_date with
  | some d => toLex (0, toLex (d, b.batch_id))
  | none => toLex (1, toLex (0, b.batch_id))

/-- Modelled from the spec: the FIFO Allocator (the backend endpoint behind
`fetchFifoBatch` in `Order-product.tsx` is not under `src/`): among the rows
with positive quantity, return the one minimal in the FIFO ordering; `none`
(`NoAvailableBatch`) when no row has positive quantity. -/
def fifoSelect (rows : List BatchStock) : Option BatchStock :=
  (rows.filter (fun b => decide (0 < b.quantity))).argmin fifoKey

theorem fifoKey_none_not_le_some (c b : BatchStock) (hc : c.expiration_date = none)
    (hb : b.expiration_date.isSome) (hle : fifoKey c ≤ fifoKey b) : False := by
  obtain ⟨d, hd⟩ := Option.isSome_iff_exists.mp hb
  simp only [fifoKey, hc, hd] at hle
  rcases (Prod.Lex.le_iff _ _).mp hle with h | ⟨h, _⟩
  · simp at h
  · simp at h

/-! ### Claims C3, C4, C9 -/

/-- Claim C3, as stated, is false on the code: `calculatePriority` in
`Stock.tsx` maps an item whose status is `Low` to priority `Medium`, while the
claim requires `High` for status `Critical` or `Low`. -/
theorem c3_low_status_counterexample :
    lowStatusItem.status = StockStatus.low ∧
    calculatePriority lowStatusItem = PriorityLevel.medium ∧
    calculatePriority lowStatusItem ≠ PriorityLevel.high := by
  refine ⟨rfl, rfl, ?_⟩
  decide

/-- Claim C3 (amended): for every stock item, the computed replenishment
priority is `High` when the item's status is `Critical`, `Medium` when the
status is `Low`, and `Low` otherwise; expiry is not consulted. -/
theorem c3_priority_amended (item : StockOverview) :
    (item.status = StockStatus.critical → calculatePriority item = PriorityLevel.high) ∧
    (item.status = StockStatus.low → calculatePriority item = PriorityLevel.medium) ∧
    (item.status = StockStatus.stable → calculatePriority item = PriorityLevel.low) := by
  unfold calculatePriority
  rcases item with ⟨_, _, _, s⟩
  cases s <;> simp

/-- Witness for C3 (amended) at the concrete fixture item of status `Low`. -/
theorem c3_priority_amended_witness :
    calculatePriority lowStatusItem = PriorityLevel.medium :=
  (c3_priority_amended lowStatusItem).2.1 rfl

/-- Claim C4: for every StockLevel row, the classifier reports status `Low` iff
`quantity ≤ reorder_level` and overstock iff `quantity > 3 × reorder_level`; in
particular quantity 5 with reorder level 10 is `Low` and quantity 500 with
reorder level 20 is overstock (the `init_db.sql` fixture rows). -/
theorem c4_classifier_thresholds (q r : Int) :
    (classifyStatus q r = StockStatus.low ↔ q ≤ r) ∧
    (isOverstock q r = true ↔ 3 * r < q) ∧
    classifyStatus 5 10 = StockStatus.low ∧
    isOverstock 500 20 = true := by
  refine ⟨?_, by simp [isOverstock], by decide, by decide⟩
  unfold classifyStatus
  split <;> simp_all

/-- Claim C9: starting from any quantity ≥ 0, after any finite sequence of
decrement and increment presses the displayed quantity stays ≥ 0, and a
decrement at quantity 0 leaves it at 0. -/
theorem c9_quantity_selector_nonneg (v : Int) (ps : List QtyPress) (h : 0 ≤ v) :
    0 ≤ pressQtySeq v ps ∧ pressQty 0 QtyPress.dec = 0 :=
  ⟨pressQtySeq_nonneg ps v h, rfl⟩

/-- Witness for C9: two decrements and an increment from quantity 1. -/
theorem c9_quantity_selector_nonneg_witness :
    0 ≤ pressQtySeq 1 [QtyPress.dec, QtyPress.dec, QtyPress.inc] ∧
    pressQty 0 QtyPress.dec = 0 :=
  c9_quantity_selector_nonneg 1 [QtyPress.dec, QtyPress.dec, QtyPress.inc] (by decide)

/-- Claim C8: the list displayed on the Stock screen is a permutation of the
fetched overview list, ordered by non-increasing computed priority (every
`High`-priority item precedes every `Medium`-priority item, which precedes
every `Low`-priority item). -/
theorem c8_load_sorted_by_priority (l : List StockOverview) :
    (loadSorted l).Perm l ∧
    List.Pairwise
      (fun a b => priorityMap (calculatePriority b) ≤ priorityMap (calculatePriority a))
      (loadSorted l) := by
  refine ⟨List.mergeSort_perm l loadLe, ?_⟩
  have hp := @List.sorted_mergeSort _ loadLe loadLe_trans loadLe_total l
  exact hp.imp (fun h => by simpa [loadLe] using h)

/-- Claim C10: the dashboard availability statistic is an integer in [0, 100],
is 0 on an empty category list, otherwise equals the rounded percentage of
categories with positive total stock, and the second dashboard variant computes
the same value (category totals are sums of non-negative quantities). -/
theorem c10_availability_stat (cats : List Int) (h : ∀ c ∈ cats, 0 ≤ c) :
    0 ≤ availability cats ∧ availability cats ≤ 100 ∧
    (cats = [] → availability cats = 0) ∧
    availability cats =
      (if cats = [] then 0
       else jsRound ((withStockCount cats : ℚ) / (cats.length : ℚ) * 100)) ∧
    availabilityAlt cats = availability cats := by
  by_cases hnil : cats = []
  · subst hnil
    refine ⟨le_refl 0, by norm_num [availability], fun _ => rfl, rfl, rfl⟩
  · have hlen : 0 < cats.length := List.length_pos.mpr hnil
    have haddlen := withStock_add_outOfStock cats h
    have hwle := withStockCount_le cats
    have hlenQ : (0 : ℚ) < (cats.length : ℚ) := by exact_mod_cast hlen
    have hratio0 : (0 : ℚ) ≤ (withStockCount cats : ℚ) / (cats.length : ℚ) * 100 := by
      positivity
    have hratio1 : (withStockCount cats : ℚ) / (cats.length : ℚ) * 100 ≤ 100 := by
      have hle1 : (withStockCount cats : ℚ) / (cats.length : ℚ) ≤ 1 := by
        rw [div_le_one hlenQ]
        exact_mod_cast hwle
      nlinarith
    obtain ⟨hb0, hb1⟩ := jsRound_bounds _ hratio0 hratio1
    have havail : availability cats =
        jsRound ((withStockCount cats : ℚ) / (cats.length : ℚ) * 100) := by
      simp [availability, hlen]
    refine ⟨?_, ?_, fun hc => absurd hc hnil, ?_, ?_⟩
    · rw [havail]; exact hb0
    · rw [havail]; exact hb1
    · rw [havail, if_neg hnil]
    · rw [havail]
      have hsub : (cats.length : ℚ) - (outOfStockCount cats : ℚ) = (withStockCount cats : ℚ) := by
        have : (withStockCount cats : ℚ) + (outOfStockCount cats : ℚ) = (cats.length : ℚ) := by
          exact_mod_cast haddlen
        linarith
      simp only [availabilityAlt, if_pos (Nat.pos_iff_ne_zero.mp hlen), hsub]

/-- Witness for C10 at the concrete category totals [5, 0, 12]. -/
theorem c10_availability_stat_witness :
    0 ≤ availability [5, 0, 12] ∧ availability [5, 0, 12] ≤ 100 ∧
    (([5, 0, 12] : List Int) = [] → availability [5, 0, 12] = 0) ∧
    availability [5, 0, 12] =
      (if ([5, 0, 12] : List Int) = [] then 0
       else jsRound ((withStockCount [5, 0, 12] : ℚ) /
         (([5, 0, 12] : List Int).length : ℚ) * 100)) ∧
    availabilityAlt [5, 0, 12] = availability [5, 0, 12] :=
  c10_availability_stat [5, 0, 12] (by decide)

/-- A concrete FIFO batch for witnesses: the oldest batch holds 5 units. -/
def fifoBatchW : FifoBatch :=
  { batch_id := 1, batch_code := "BATCH-LOW-STOCK", quantity := 5,
    expiration_date := some "2030-12-31" }

/-- Claim C1: when the requested quantity exceeds the FIFO batch's available
quantity, a non-manager's order is rejected as a FIFO violation, no commit
request is issued and the stock ledger is unchanged; a manager's identical
order proceeds and the commit request goes out (with the manager FIFO alert). -/
theorem c1_fifo_ceiling_role_gate (sel : Nat) (fb : FifoBatch) (value : Int)
    (u : SessionUser) (store : Nat) (stock : List HasStockRow)
    (hviol : fb.quantity < value) :
    (u.role_id ≠ 2 →
      placeOrder (some sel) (some fb) value (some u) =
        PlaceOrderOutcome.fifoViolationRejected ∧
      commitsOf (placeOrder (some sel) (some fb) value (some u)) = [] ∧
      stockAfterOrder store stock (placeOrder (some sel) (some fb) value (some u)) =
        stock) ∧
    (u.role_id = 2 →
      placeOrder (some sel) (some fb) value (some u) =
        PlaceOrderOutcome.commitIssued true
          { batch_id := sel, quantity := value, user_id := u.user_id }) := by
  constructor
  · intro hrole
    have hout : placeOrder (some sel) (some fb) value (some u) =
        PlaceOrderOutcome.fifoViolationRejected := by
      simp [placeOrder, roleId, hviol, hrole]
    exact ⟨hout, by rw [hout]; rfl, by rw [hout]; rfl⟩
  · intro hrole
    simp [placeOrder, roleId, hviol, hrole, Option.getD]

/-- Witness for C1: quantity 6 against a 5-unit oldest batch, rejected for the
employee (role 1) and committed for the manager (role 2). -/
theorem c1_fifo_ceiling_role_gate_witness :
    (placeOrder (some 1) (some fifoBatchW) 6 (some { user_id := 7, role_id := 1 }) =
      PlaceOrderOutcome.fifoViolationRejected ∧
     commitsOf (placeOrder (some 1) (some fifoBatchW) 6
       (some { user_id := 7, role_id := 1 })) = [] ∧
     stockAfterOrder 100 hasStockFixtures
       (placeOrder (some 1) (some fifoBatchW) 6
         (some { user_id := 7, role_id := 1 })) = hasStockFixtures) ∧
    placeOrder (some 1) (some fifoBatchW) 6 (some { user_id := 7, role_id := 2 }) =
      PlaceOrderOutcome.commitIssued true
        { batch_id := 1, quantity := 6, user_id := 7 } :=
  ⟨(c1_fifo_ceiling_role_gate 1 fifoBatchW 6 { user_id := 7, role_id := 1 }
      100 hasStockFixtures (by decide)).1 (by decide),
   (c1_fifo_ceiling_role_gate 1 fifoBatchW 6 { user_id := 7, role_id := 2 }
      100 hasStockFixtures (by decide)).2 rfl⟩

/-- Claim C2: the override-suggestion action is available and takes effect only
for a role-2 (Manager) user: for anyone else the button is not rendered and
`openOverrideModal` leaves the screen state untouched, while for a manager the
modal opens. -/
theorem c2_override_requires_manager (currentUser : Option SessionUser)
    (value : Int) (s : OverrideModalState) (loadingUser : Bool) :
    (roleId currentUser ≠ some 2 →
      openOverrideModal currentUser value s = s ∧
      overrideButtonVisible loadingUser currentUser = false) ∧
    (roleId currentUser = some 2 →
      (openOverrideModal currentUser value s).modalVisible = true) ∧
    (overrideButtonVisible loadingUser currentUser = true ↔
      loadingUser = false ∧ roleId currentUser = some 2) := by
  refine ⟨fun hrole => ⟨?_, ?_⟩, fun hrole => ?_, ?_⟩
  · simp [openOverrideModal, hrole]
  · simp [overrideButtonVisible, hrole]
  · simp [openOverrideModal, hrole]
  · cases loadingUser <;> simp [overrideButtonVisible]

/-- Witness for C2: an employee (role 1) leaves the closed modal closed and
sees no button; a manager (role 2) opens the modal. -/
theorem c2_override_requires_manager_witness :
    (openOverrideModal (some { user_id := 7, role_id := 1 }) 5
        { overrideQuantity := 5, reason := "", priority := PriorityLevel.high,
          notes := "", modalVisible := false } =
      { overrideQuantity := 5, reason := "", priority := PriorityLevel.high,
        notes := "", modalVisible := false } ∧
      overrideButtonVisible false (some { user_id := 7, role_id := 1 }) = false) ∧
    (openOverrideModal (some { user_id := 2, role_id := 2 }) 5
        { overrideQuantity := 5, reason := "", priority := PriorityLevel.high,
          notes := "", modalVisible := false }).modalVisible = true :=
  ⟨(c2_override_requires_manager (some { user_id := 7, role_id := 1 }) 5
      { overrideQuantity := 5, reason := "", priority := PriorityLevel.high,
        notes := "", modalVisible := false } false).1 (by decide),
   (c2_override_requires_manager (some { user_id := 2, role_id := 2 }) 5
      { overrideQuantity := 5, reason := "", priority := PriorityLevel.high,
        notes := "", modalVisible := false } false).2.1 rfl⟩

/-- Claim C5: with zero average daily sales the days-to-out-of-stock value is
null (not a division error), the Stock screen renders the null as the
placeholder text, and with non-zero sales it is the exact quotient. -/
theorem c5_zero_sales_unbounded (total avg : ℚ) :
    (avg = 0 →
      daysToOutOfStock total avg = none ∧
      renderDaysToOOS (daysToOutOfStock total avg) = "Days to OOS: —") ∧
    (avg ≠ 0 → daysToOutOfStock total avg = some (total / avg)) := by
  constructor
  · intro h
    have hd : daysToOutOfStock total avg = none := by simp [daysToOutOfStock, h]
    exact ⟨hd, by rw [hd]; rfl⟩
  · intro h
    simp [daysToOutOfStock, h]

/-- Witness for C5: 50 units with zero, then with nonzero, daily sales. -/
theorem c5_zero_sales_unbounded_witness :
    (daysToOutOfStock 50 0 = none ∧
     renderDaysToOOS (daysToOutOfStock 50 0) = "Days to OOS: —") ∧
    daysToOutOfStock 50 2 = some (50 / 2) :=
  ⟨(c5_zero_sales_unbounded 50 0).1 rfl,
   (c5_zero_sales_unbounded 50 2).2 (by norm_num)⟩

/-- Claim C6: setting a cadence outside [1,3] fails with `InvalidCadence` and
writes nothing, any value in [1,3] is accepted, the Settings screen offers
exactly values within [1,3], and every fixture row satisfies the CHECK. -/
theorem c6_cadence_range (table : List CadenceRow) (pid sid : Nat) (f : Int) :
    (¬(1 ≤ f ∧ f ≤ 3) →
      setFrequency table pid sid f = Except.error CadenceError.invalidCadence ∧
      ∀ t', setFrequency table pid sid f ≠ Except.ok t') ∧
    (1 ≤ f → f ≤ 3 → ∃ t', setFrequency table pid sid f = Except.ok t') ∧
    (∀ v ∈ frequencyOptions, 1 ≤ v ∧ v ≤ 3) ∧
    (∀ r ∈ cadenceFixtures, cadenceCheck r.replenishment_frequency = true) := by
  refine ⟨fun hout => ?_, fun h1 h3 => ?_, by decide, by decide⟩
  · have herr : setFrequency table pid sid f =
        Except.error CadenceError.invalidCadence := by
      have : cadenceCheck f = false := by
        simp only [cadenceCheck, Bool.and_eq_false_iff, decide_eq_false_iff_not]
        omega
      simp [setFrequency, this]
    exact ⟨herr, fun t' h => by rw [herr] at h; exact Except.noConfusion h⟩
  · have hc : cadenceCheck f = true := by
      simp only [cadenceCheck, Bool.and_eq_true, decide_eq_true_eq]
      omega
    exact ⟨table.map (fun r =>
      if r.product_id = pid ∧ r.store_id = sid then
        { r with replenishment_frequency := f }
      else r), by simp [setFrequency, hc]⟩

/-- Witness for C6: frequency 5 is rejected, frequency 2 is accepted. -/
theorem c6_cadence_range_witness :
    (setFrequency cadenceFixtures 1 1 5 =
      Except.error CadenceError.invalidCadence ∧
     ∀ t', setFrequency cadenceFixtures 1 1 5 ≠ Except.ok t') ∧
    ∃ t', setFrequency cadenceFixtures 1 1 2 = Except.ok t' :=
  ⟨(c6_cadence_range cadenceFixtures 1 1 5).1 (by omega),
   (c6_cadence_range cadenceFixtures 1 1 2).2.1 (by omega) (by omega)⟩

/-- Concrete rows for the C7 witness: an undated batch with stock, a dated
batch with stock, and a dated batch that is exhausted. -/
def fifoRowsW : List BatchStock :=
  [ { batch_id := 1, expiration_date := none, quantity := 5 },
    { batch_id := 2, expiration_date := some 10, quantity := 3 },
    { batch_id := 3, expiration_date := some 7, quantity := 0 } ]

/-- Claim C7: with at least one positive-quantity batch the FIFO Allocator
returns a positive-quantity batch that is minimal in the FIFO ordering
(earliest non-null expiration, undated after dated, ties by lowest batch id) —
in particular an undated batch is never chosen while a dated positive batch
exists; with no positive-quantity batch it returns `NoAvailableBatch`. -/
theorem c7_fifo_allocator (rows : List BatchStock) :
    ((∃ b ∈ rows, 0 < b.quantity) →
      ∃ c, fifoSelect rows = some c ∧ c ∈ rows ∧ 0 < c.quantity ∧
        (∀ b ∈ rows, 0 < b.quantity → fifoKey c ≤ fifoKey b) ∧
        (∀ b ∈ rows, 0 < b.quantity → b.expiration_date.isSome →
          c.expiration_date.isSome)) ∧
    ((∀ b ∈ rows, ¬0 < b.quantity) → fifoSelect rows = none) := by
  constructor
  · rintro ⟨b, hbmem, hbpos⟩
    have hbf : b ∈ rows.filter (fun b => decide (0 < b.quantity)) :=
      List.mem_filter.mpr ⟨hbmem, by simpa using hbpos⟩
    have hne : rows.filter (fun b => decide (0 < b.quantity)) ≠ [] :=
      List.ne_nil_of_mem hbf
    obtain ⟨c, hc⟩ : ∃ c, fifoSelect rows = some c := by
      rcases ho : fifoSelect rows with _ | c
      · exact absurd (List.argmin_eq_none.mp ho) hne
      · exact ⟨c, rfl⟩
    have hcmem : c ∈ rows.filter (fun b => decide (0 < b.quantity)) :=
      List.argmin_mem hc
    have hcrows : c ∈ rows := (List.mem_filter.mp hcmem).1
    have hcpos : 0 < c.quantity := by
      simpa using (List.mem_filter.mp hcmem).2
    have hmin : ∀ b ∈ rows, 0 < b.quantity → fifoKey c ≤ fifoKey b := by
      intro b hb hbp
      exact List.le_of_mem_argmin
        (List.mem_filter.mpr ⟨hb, by simpa using hbp⟩) hc
    refine ⟨c, hc, hcrows, hcpos, hmin, ?_⟩
    intro b hb hbp hbdated
    rcases he : c.expiration_date with _ | d
    · exact absurd (fifoKey_none_not_le_some c b he hbdated (hmin b hb hbp))
        not_false
    · simp
  · intro hnone
    have : rows.filter (fun b => decide (0 < b.quantity)) = [] :=
      List.filter_eq_nil_iff.mpr (fun b hb => by simpa using hnone b hb)
    simp [fifoSelect, this]

/-- Witness for C7: on the concrete rows the allocator picks a positive, dated,
FIFO-minimal batch. -/
theorem c7_fifo_allocator_witness :
    ∃ c, fifoSelect fifoRowsW = some c ∧ c ∈ fifoRowsW ∧ 0 < c.quantity ∧
      (∀ b ∈ fifoRowsW, 0 < b.quantity → fifoKey c ≤ fifoKey b) ∧
      (∀ b ∈ fifoRowsW, 0 < b.quantity → b.expiration_date.isSome →
        c.expiration_date.isSome) :=
  (c7_fifo_allocator fifoRowsW).1
    ⟨{ batch_id := 2, expiration_date := some 10, quantity := 3 },
      by decide, by decide⟩

end SmartStock
